import Mathlib

/-!
Shallow embedding of the notification/digest database helper of the
FightPandemics backend (class DatabaseHelper of database-helper.js).

Documents are modelled as Lean structures, collections as lists, and the
aggregation pipelines as pure list transformations over an explicit
database state `DB`.  Timestamps are JavaScript epoch milliseconds,
modelled as `Int`.  Methods that write (`setEmailSentAt` via `updateMany`)
return an updated `DB`; read-only methods thread the state unchanged.
The per-thread loop of `findUnreadDirectMessages` can throw a `TypeError`
in JavaScript (destructuring a property of `undefined`); that is modelled
with `Except String`.
-/

namespace FightPandemics

/-- Modelled from the spec: models/email-frequency.js is not among the
reviewed sources.  The spec fixes the four tiers instant, daily, weekly and
biweekly; line 146 of the helper hard-codes the field key
emailSentAt.instant, showing the enum values are the lowercase tier names
used directly as document field keys. -/
def EmailFrequency.INSTANT : String := "instant"

/-- Modelled from the spec: the daily digest tier value. -/
def EmailFrequency.DAILY : String := "daily"

/-- Modelled from the spec: the weekly digest tier value. -/
def EmailFrequency.WEEKLY : String := "weekly"

/-- Modelled from the spec: the biweekly digest tier value. -/
def EmailFrequency.BIWEEKLY : String := "biweekly"

/-- Modelled from the spec: models/message-thread-status.js is not among
the reviewed sources; the spec describes the relationship status as the
enum accepted/pending/other. -/
inductive MessageThreadStatus
  | ACCEPTED
  | PENDING
  | OTHER
deriving DecidableEq

/-- Modelled from the spec: models/notification-action.js is not among the
reviewed sources; the spec describes the action kind as the enum
comment/like/share, and the helper indexes the count record with the
action value, so the enum values are the lowercase action names. -/
inductive NotificationAction
  | COMMENT
  | LIKE
  | SHARE
deriving DecidableEq

/-- One JavaScript minute in epoch milliseconds. -/
def minuteMs : Int := 60000

/-- One JavaScript day in epoch milliseconds. -/
def dayMs : Int := 86400000

/-- Modelled from the spec: date-helper.js is not among the reviewed
sources.  Subtracting a number of minutes from a Date yields the Date that
many minutes earlier. -/
def DateHelper.subtractMinutes (now : Int) (m : Int) : Int :=
  now - m * minuteMs

/-- Modelled from the spec: date-helper.js is not among the reviewed
sources.  Subtracting a number of days from a Date yields the Date that
many days earlier.  The day count is `Option Nat` because the caller
(`_findDigestNotifications`) leaves `intervalDays` undefined for an
unrecognized frequency; `now - undefined` is `NaN` in JavaScript, an
invalid Date, which the BSON driver serializes as the epoch (Long.fromNumber
maps NaN to zero), so the undefined case yields the epoch value 0. -/
def DateHelper.subtractDays (now : Int) (d : Option Nat) : Int :=
  match d with
  | some k => now - (k : Int) * dayMs
  | none => 0

/-- A referenced post: identifier plus opaque metadata. -/
structure Post where
  id : String
  title : String
deriving DecidableEq

/-- A notification document.  `emailSentAt` is the nested document of
per-tier sent stamps, modelled as an association list from field key to
timestamp; an absent key models both a missing field and a null value
(both match a null equality query). -/
structure Notification where
  id : Nat
  receiver : Nat
  post : Post
  action : NotificationAction
  createdAt : Int
  readAt : Option Int
  emailSentAt : List (String × Int)
deriving DecidableEq

/-- Per-channel instant notification preferences of a user. -/
structure InstantPrefs where
  message : Bool
deriving DecidableEq

/-- Notification preferences of a user. -/
structure NotifyPrefs where
  instant : InstantPrefs
deriving DecidableEq

/-- A user document. `notifyPrefs` is nullable. -/
structure User where
  id : Nat
  email : String
  notifyPrefs : Option NotifyPrefs
deriving DecidableEq

/-- A participant entry of a message thread. -/
structure Participant where
  id : Nat
  newMessages : Nat
  lastAccess : Int
  status : MessageThreadStatus
deriving DecidableEq

/-- A message thread document. -/
structure Thread where
  id : Nat
  participants : List Participant
deriving DecidableEq

/-- A message document. -/
structure Message where
  id : Nat
  threadId : Nat
  createdAt : Int
  content : String
deriving DecidableEq

/-- The database state: the four collections the helper touches. -/
structure DB where
  threads : List Thread
  messages : List Message
  notifications : List Notification
  users : List User
deriving DecidableEq

/-- Reading the nested field emailSentAt.freq of a notification document. -/
def lookupSent (e : List (String × Int)) (freq : String) : Option Int :=
  (e.find? (fun kv => kv.1 == freq)).map (fun kv => kv.2)

/-- The effect of the update operator set on the nested field
emailSentAt.freq: overwrite the field when present, create it otherwise. -/
def setSentField : List (String × Int) → String → Int → List (String × Int)
  | [], freq, t => [(freq, t)]
  | kv :: rest, freq, t =>
      if kv.1 == freq then (freq, t) :: rest
      else kv :: setSentField rest freq t

/-- DatabaseHelper.setEmailSentAt (lines 128-139): updateMany over the
notifications collection, setting emailSentAt.frequency to the current
time for every notification whose id is in the given list. -/
def setEmailSentAt (db : DB) (notificationIds : List Nat) (frequency : String)
    (now : Int) : DB :=
  { db with
    notifications := db.notifications.map (fun n =>
      if notificationIds.contains n.id then
        { n with emailSentAt := setSentField n.emailSentAt frequency now }
      else n) }

/-- The per-action tallies of a post aggregate. -/
structure Counts where
  comment : Nat
  like : Nat
  share : Nat
  total : Nat
deriving DecidableEq

/-- One post aggregate of the digest aggregator (an entry of
notificationCountsByPost, lines 250-260). -/
structure PostAgg where
  latest : Option Notification
  post : Post
  counts : Counts
deriving DecidableEq

/-- The freshly initialized aggregate for a post (lines 251-260). -/
def emptyAgg (p : Post) : PostAgg :=
  { latest := none
    post := p
    counts := { comment := 0, like := 0, share := 0, total := 0 } }

/-- Lines 262-263: counts[action] += 1 and counts.total += 1. -/
def bumpCounts (c : Counts) (a : NotificationAction) : Counts :=
  match a with
  | NotificationAction.COMMENT => { c with comment := c.comment + 1, total := c.total + 1 }
  | NotificationAction.LIKE => { c with like := c.like + 1, total := c.total + 1 }
  | NotificationAction.SHARE => { c with share := c.share + 1, total := c.total + 1 }

/-- Lines 264-276: only a comment action updates latest, and an existing
latest is replaced only by a strictly later creation timestamp. -/
def updateLatest (cur : Option Notification) (n : Notification) : Option Notification :=
  if n.action ≠ NotificationAction.COMMENT then cur
  else
    match cur with
    | none => some n
    | some m => if m.createdAt < n.createdAt then some n else some m

/-- The loop body of _aggregateNotifications applied to the aggregate of
the post of the notification (lines 262-276). -/
def applyNotification (a : PostAgg) (n : Notification) : PostAgg :=
  { a with
    counts := bumpCounts a.counts n.action
    latest := updateLatest a.latest n }

/-- One step of building notificationCountsByPost (lines 247-277): the
object is modelled as an association list keyed by post id, in key
insertion order (post ids are non-index object keys, so Object.values
enumerates them in insertion order).  A missing key is initialized with
the zero aggregate before the increments are applied. -/
def insertNotification : List (String × PostAgg) → Notification → List (String × PostAgg)
  | [], n => [(n.post.id, applyNotification (emptyAgg n.post) n)]
  | (k, a) :: rest, n =>
      if k == n.post.id then (k, applyNotification a n) :: rest
      else (k, a) :: insertNotification rest n

/-- The sort comparator of line 280: (a, b) => b.counts.total - a.counts.total,
that is descending by total count. -/
def byTotalDesc (a b : PostAgg) : Prop :=
  b.counts.total ≤ a.counts.total

instance : DecidableRel byTotalDesc :=
  fun a b => inferInstanceAs (Decidable (b.counts.total ≤ a.counts.total))

instance : IsTotal PostAgg byTotalDesc :=
  ⟨fun a b => Nat.le_total b.counts.total a.counts.total⟩

instance : IsTrans PostAgg byTotalDesc :=
  ⟨fun _ _ _ hab hbc => Nat.le_trans hbc hab⟩

/-- DatabaseHelper._aggregateNotifications (lines 245-283): group the
notifications by post id, tally actions and the latest comment, then sort
the aggregates by total count descending (a stable sort, as mandated for
Array.prototype.sort since ES2019) and keep the first three. -/
def _aggregateNotifications (ns : List Notification) : List PostAgg :=
  (((ns.foldl insertNotification []).map Prod.snd).insertionSort byTotalDesc).take 3

/-- One digest record (lines 230-233). -/
structure Digest where
  posts : List PostAgg
  receiver : User
deriving DecidableEq

/-- Lines 179-186: the if-chain mapping a digest frequency to its lookback
window in days; an unrecognized frequency leaves intervalDays undefined. -/
def intervalDaysFor (frequency : String) : Option Nat :=
  if frequency == EmailFrequency.DAILY then some 1
  else if frequency == EmailFrequency.WEEKLY then some 7
  else if frequency == EmailFrequency.BIWEEKLY then some 14
  else none

/-- The match stage of the digest pipeline (lines 191-198): no sent stamp
for the tier, and created strictly after now minus the lookback window. -/
def digestMatch (frequency : String) (now : Int) (n : Notification) : Bool :=
  (lookupSent n.emailSentAt frequency).isNone &&
    decide (DateHelper.subtractDays now (intervalDaysFor frequency) < n.createdAt)

/-- One step of the group stage keyed by receiver (lines 199-206),
modelled as an association list in first-occurrence order. -/
def insertGroup : List (Nat × List Notification) → Notification → List (Nat × List Notification)
  | [], n => [(n.receiver, [n])]
  | (r, ns) :: rest, n =>
      if r == n.receiver then (r, ns ++ [n]) :: rest
      else (r, ns) :: insertGroup rest n

/-- The group stage of the digest pipeline: push every matched
notification into the group of its receiver. -/
def groupByReceiver (ns : List Notification) : List (Nat × List Notification) :=
  ns.foldl insertGroup []

/-- DatabaseHelper._findDigestNotifications (lines 178-243): match by
missing tier stamp and creation window, group by receiver, join and unwind
the receiver user (a group whose receiver has no user record is dropped by
unwind), aggregate each group to its top three posts, then stamp
emailSentAt.frequency for every notification of the surviving groups. -/
def _findDigestNotifications (db : DB) (now : Int) (frequency : String) :
    List Digest × DB :=
  let matched := db.notifications.filter (digestMatch frequency now)
  let groups := groupByReceiver matched
  let unwound := groups.flatMap (fun g =>
    (db.users.filter (fun u => u.id == g.1)).map (fun u => (g.2, u)))
  let digests := unwound.map (fun gu =>
    { posts := _aggregateNotifications gu.1, receiver := gu.2 })
  let processed := unwound.flatMap (fun gu => gu.1.map (fun n => n.id))
  (digests, setEmailSentAt db processed frequency now)

/-- The match stage of the instant pipeline (lines 143-154): unread, no
instant sent stamp, created before now minus the lookback interval. -/
def instantMatch (lookback now : Int) (n : Notification) : Bool :=
  n.readAt.isNone &&
    (lookupSent n.emailSentAt EmailFrequency.INSTANT).isNone &&
    decide (n.createdAt < DateHelper.subtractMinutes now lookback)

/-- The match stage output of the instant pipeline (lines 143-154). -/
def instantMatched (db : DB) (lookback now : Int) : List Notification :=
  db.notifications.filter (instantMatch lookback now)

/-- The join-and-unwind stage of the instant pipeline (lines 155-168): each
matched notification is paired with every user record carrying its
receiver id; unwind drops a notification with no such record. -/
def instantResults (db : DB) (lookback now : Int) : List (Notification × User) :=
  (instantMatched db lookback now).flatMap (fun n =>
    (db.users.filter (fun u => u.id == n.receiver)).map (fun u => (n, u)))

/-- DatabaseHelper._findInstantNotifications (lines 141-176): match, join
and unwind the receiver user, then immediately stamp emailSentAt.instant
for every returned notification before returning. -/
def _findInstantNotifications (db : DB) (lookback now : Int) :
    List (Notification × User) × DB :=
  (instantResults db lookback now,
    setEmailSentAt db ((instantResults db lookback now).map (fun r => r.1.id))
      EmailFrequency.INSTANT now)

/-- The two result shapes of findNotifications: the instant path returns
joined notifications, the digest path returns digest records. -/
inductive FindResult
  | instantList (items : List (Notification × User))
  | digestList (items : List Digest)
deriving DecidableEq

/-- DatabaseHelper.findNotifications (lines 24-29): dispatch on the
frequency; everything other than the instant value, recognized or not,
goes to the digest path. -/
def findNotifications (db : DB) (lookback now : Int) (frequency : String) :
    FindResult × DB :=
  if frequency == EmailFrequency.INSTANT then
    let r := _findInstantNotifications db lookback now
    (FindResult.instantList r.1, r.2)
  else
    let r := _findDigestNotifications db now frequency
    (FindResult.digestList r.1, r.2)

/-- The match stage of the thread pipeline (lines 35-51).  Each dotted
array condition is an independent top-level field of the match document,
so each may be satisfied by a different participant. -/
def threadMatch (lookback now : Int) (t : Thread) : Bool :=
  t.participants.any (fun p => 0 < p.newMessages) &&
    t.participants.any (fun p =>
      decide (p.lastAccess < DateHelper.subtractMinutes now lookback)) &&
    t.participants.any (fun p =>
      p.status == MessageThreadStatus.ACCEPTED ||
        p.status == MessageThreadStatus.PENDING)

/-- A thread together with its joined users array (lines 52-59). -/
structure JoinedThread where
  thread : Thread
  users : List User
deriving DecidableEq

/-- The lookup stage joining users on participants.id (lines 52-59). -/
def joinUsers (db : DB) (t : Thread) : JoinedThread :=
  { thread := t
    users := db.users.filter (fun u => t.participants.any (fun p => p.id == u.id)) }

/-- The sort comparator of the messages pipeline (line 79): ascending by
creation timestamp. -/
def byCreatedAtAsc (a b : Message) : Prop :=
  a.createdAt ≤ b.createdAt

instance : DecidableRel byCreatedAtAsc :=
  fun a b => inferInstanceAs (Decidable (a.createdAt ≤ b.createdAt))

/-- The messages pipeline restricted to one thread (lines 72-88): sort the
messages of the thread by creation time ascending and keep the last one;
a thread with no messages produces no group. -/
def latestMessageFor (msgs : List Message) (tid : Nat) : Option Message :=
  ((msgs.filter (fun m => m.threadId == tid)).insertionSort byCreatedAtAsc).getLast?

/-- Indexing threadsObject (lines 67-70, 94): the object built by reduce
keeps, for a repeated id, the thread spread in last; an id absent from
the object yields undefined, modelled as none. -/
def threadsObjectGet (joined : List JoinedThread) (tid : Nat) : Option JoinedThread :=
  (joined.filter (fun jt => jt.thread.id == tid)).getLast?

/-- One element of the returned messages array (lines 118-122). -/
structure DirectMessageItem where
  sender : Participant
  receiver : Participant
  receiverEmail : String
  message : Message
deriving DecidableEq

/-- The JavaScript TypeError raised by destructuring notifyPrefs and email
out of an undefined receiverUser (line 113). -/
def typeErrorMsg : String := "TypeError: cannot destructure property notifyPrefs of undefined"

/-- The JavaScript TypeError raised by reading participants of an
undefined thread (line 105). -/
def threadUndefinedMsg : String := "TypeError: cannot read participants of undefined"

/-- The predicate resolving the sender (line 105): the first participant
with a zero unread count. -/
def senderPred (p : Participant) : Bool :=
  p.newMessages == 0

/-- The predicate resolving the receiver (line 106): the first participant
with a positive unread count. -/
def receiverPred (p : Participant) : Bool :=
  decide (0 < p.newMessages)

/-- The loop body over one message group and its thread (lines 94-123):
resolve sender and receiver by the unread-count invariant, skipping the
thread when either resolution fails; find the receiver user record in the
joined users array, throwing a TypeError when it is absent; skip when the
receiver disabled instant message notifications; otherwise emit the
sender/receiver/latest-message item. -/
def processThreadMessage (jt : JoinedThread) (msg : Message) :
    Except String (Option DirectMessageItem) :=
  match jt.thread.participants.find? senderPred,
      jt.thread.participants.find? receiverPred with
  | some s, some r =>
      match jt.users.find? (fun u => u.id == r.id) with
      | none => Except.error typeErrorMsg
      | some u =>
          match u.notifyPrefs with
          | some prefs =>
              if prefs.instant.message then
                Except.ok (some { sender := s, receiver := r,
                                  receiverEmail := u.email, message := msg })
              else Except.ok none
          | none =>
              Except.ok (some { sender := s, receiver := r,
                                receiverEmail := u.email, message := msg })
  | _, _ => Except.ok none

/-- The loop body including the threadsObject lookup (line 94). -/
def processMessageGroup (joined : List JoinedThread) (gm : Nat × Message) :
    Except String (Option DirectMessageItem) :=
  match threadsObjectGet joined gm.1 with
  | none => Except.error threadUndefinedMsg
  | some jt => processThreadMessage jt gm.2

/-- The while loop of lines 92-123: process the message groups in order,
skipping a group that yields none, accumulating emitted items, and
aborting the whole loop on a thrown error. -/
def collectItems (joined : List JoinedThread) :
    List (Nat × Message) → List DirectMessageItem →
      Except String (List DirectMessageItem)
  | [], acc => Except.ok acc
  | g :: rest, acc =>
      match processMessageGroup joined g with
      | Except.error e => Except.error e
      | Except.ok none => collectItems joined rest acc
      | Except.ok (some item) => collectItems joined rest (acc ++ [item])

/-- DatabaseHelper.findUnreadDirectMessages (lines 31-126): filter and
join the threads, take the latest message per matched thread, and run the
pairing loop.  The method issues no update, so the database state is
returned unchanged. -/
def findUnreadDirectMessages (db : DB) (lookback now : Int) :
    Except String (List DirectMessageItem) × DB :=
  let threads := db.threads.filter (threadMatch lookback now)
  let joined := threads.map (joinUsers db)
  let threadIds := threads.map (fun t => t.id)
  let groups := threadIds.filterMap (fun tid =>
    (latestMessageFor db.messages tid).map (fun m => (tid, m)))
  (collectItems joined groups [], db)

/-- The connection configuration (constructor, lines 8-13, and _buildUri,
lines 285-296).  The string fields model JavaScript strings where the
empty string stands for a missing or empty (falsy) value; port models a
JavaScript number or undefined, where 0 is falsy. -/
structure Config where
  protocol : String
  host : String
  username : String
  password : String
  port : Option Nat
  retryWrites : Bool
  database : String
deriving DecidableEq

/-- JavaScript truthiness of the optional port number. -/
def portTruthy : Option Nat → Bool
  | none => false
  | some p => p != 0

/-- The usernamePassword segment (lines 286-289): username colon password
at-sign when both are truthy, empty otherwise. -/
def uriCredentials (c : Config) : String :=
  if !c.username.isEmpty && !c.password.isEmpty then
    c.username ++ ":" ++ c.password ++ "@"
  else ""

/-- The port segment (line 290): colon port when truthy, empty otherwise. -/
def uriPort (c : Config) : String :=
  match c.port with
  | some p => if p != 0 then ":" ++ toString p else ""
  | none => ""

/-- The retryWrites query-string segment (lines 291-293). -/
def uriRetry (c : Config) : String :=
  if c.retryWrites then "?retryWrites=true&w=majority" else ""

/-- DatabaseHelper._buildUri (lines 285-296): concatenate the scheme,
optional credentials, host, optional port and optional query string.  The
three local constants of the source are the three segment functions
above. -/
def _buildUri (c : Config) : String :=
  c.protocol ++ "://" ++ uriCredentials c ++ c.host ++ uriPort c ++ uriRetry c

/-! ## Helper lemmas -/

theorem intervalDaysFor_daily : intervalDaysFor EmailFrequency.DAILY = some 1 := by
  decide

theorem intervalDaysFor_weekly : intervalDaysFor EmailFrequency.WEEKLY = some 7 := by
  decide

theorem intervalDaysFor_biweekly : intervalDaysFor EmailFrequency.BIWEEKLY = some 14 := by
  decide

theorem string_append_at_ne_empty (u p : String) : u ++ ":" ++ p ++ "@" ≠ "" := by
  intro h
  have hlen := congrArg String.length h
  rw [String.length_append, String.length_append, String.length_append] at hlen
  have h1 : String.length (":") = 1 := rfl
  have h2 : String.length ("@") = 1 := rfl
  have h3 : String.length ("") = 0 := rfl
  omega

theorem string_cons_colon_ne_empty (s : String) : ":" ++ s ≠ "" := by
  intro h
  have hlen := congrArg String.length h
  rw [String.length_append] at hlen
  have h1 : String.length (":") = 1 := rfl
  have h2 : String.length ("") = 0 := rfl
  omega

/-- Lookup of the aggregate stored for a post id in the association list
modelling notificationCountsByPost. -/
def findAgg (acc : List (String × PostAgg)) (k : String) : Option PostAgg :=
  (acc.find? (fun e => e.1 == k)).map (fun e => e.2)

/-- The aggregate obtained by folding a uniform-key notification list,
initialized from the post of its first element, mirroring lines 250-261. -/
def aggOf : List Notification → Option PostAgg
  | [] => none
  | m :: ms => some ((m :: ms).foldl applyNotification (emptyAgg m.post))

theorem findAgg_insert (acc : List (String × PostAgg)) (n : Notification) (k : String) :
    findAgg (insertNotification acc n) k =
      if k = n.post.id then
        some (applyNotification ((findAgg acc k).getD (emptyAgg n.post)) n)
      else findAgg acc k := by
  induction acc with
  | nil =>
      by_cases hk : k = n.post.id
      · subst hk
        simp [insertNotification, findAgg, List.find?]
      · have hb : (n.post.id == k) = false := by
          simp only [beq_eq_false_iff_ne, ne_eq]
          exact fun e => hk e.symm
        simp [insertNotification, findAgg, List.find?, hb, hk]
  | cons e rest ih =>
      obtain ⟨ek, ea⟩ := e
      by_cases he : ek = n.post.id
      · have hinsert : insertNotification ((ek, ea) :: rest) n =
            (ek, applyNotification ea n) :: rest := by
          simp [insertNotification, he]
        rw [hinsert]
        by_cases hk : k = ek
        · have hb : (ek == k) = true := by simp [hk]
          rw [if_pos (by rw [hk, he])]
          simp [findAgg, List.find?, hb]
        · have hb : (ek == k) = false := by
            simp only [beq_eq_false_iff_ne, ne_eq]
            exact fun e2 => hk e2.symm
          have hkn : ¬ k = n.post.id := by rw [← he]; exact hk
          rw [if_neg hkn]
          simp [findAgg, List.find?, hb]
      · have hb : (ek == n.post.id) = false := by
          simp only [beq_eq_false_iff_ne, ne_eq]
          exact he
        have hinsert : insertNotification ((ek, ea) :: rest) n =
            (ek, ea) :: insertNotification rest n := by
          simp [insertNotification, hb]
        rw [hinsert]
        by_cases hk : k = ek
        · have hbt : (ek == k) = true := by simp [hk]
          have hkn : ¬ k = n.post.id := by rw [hk]; exact he
          rw [if_neg hkn]
          simp [findAgg, List.find?, hbt]
        · have hbf : (ek == k) = false := by
            simp only [beq_eq_false_iff_ne, ne_eq]
            exact fun e2 => hk e2.symm
          have lhs1 : findAgg ((ek, ea) :: insertNotification rest n) k =
              findAgg (insertNotification rest n) k := by
            simp [findAgg, List.find?, hbf]
          have rhs1 : findAgg ((ek, ea) :: rest) k = findAgg rest k := by
            simp [findAgg, List.find?, hbf]
          rw [lhs1, rhs1, ih]

theorem findAgg_foldl (ns : List Notification) (acc : List (String × PostAgg)) (k : String) :
    findAgg (ns.foldl insertNotification acc) k =
      match findAgg acc k with
      | some a => some ((ns.filter (fun n => n.post.id == k)).foldl applyNotification a)
      | none => aggOf (ns.filter (fun n => n.post.id == k)) := by
  induction ns generalizing acc with
  | nil =>
      cases h : findAgg acc k <;> simp [h, aggOf]
  | cons n ns ih =>
      rw [List.foldl_cons, ih]
      by_cases hk : k = n.post.id
      · have hf : (n.post.id == k) = true := by simp [hk]
        have hfil : List.filter (fun m => m.post.id == k) (n :: ns) =
            n :: List.filter (fun m => m.post.id == k) ns := by
          simp [List.filter_cons, hf]
        rw [findAgg_insert, if_pos hk, hfil]
        cases h : findAgg acc k with
        | some a => simp [aggOf]
        | none => simp [aggOf]
      · have hf : (n.post.id == k) = false := by
          simp only [beq_eq_false_iff_ne, ne_eq]
          exact fun e2 => hk e2.symm
        have hfil : List.filter (fun m => m.post.id == k) (n :: ns) =
            List.filter (fun m => m.post.id == k) ns := by
          simp [List.filter_cons, hf]
        rw [findAgg_insert, if_neg hk, hfil]

theorem keys_insert_subset (acc : List (String × PostAgg)) (n : Notification) :
    ∀ x ∈ (insertNotification acc n).map Prod.fst,
      x ∈ acc.map Prod.fst ∨ x = n.post.id := by
  induction acc with
  | nil =>
      intro x hx
      simp [insertNotification] at hx
      exact Or.inr hx
  | cons e rest ih =>
      obtain ⟨ek, ea⟩ := e
      by_cases he : (ek == n.post.id) = true
      · have hinsert : insertNotification ((ek, ea) :: rest) n =
            (ek, applyNotification ea n) :: rest := by
          simp only [insertNotification, he, if_true]
        rw [hinsert]
        intro x hx
        simp only [List.map_cons, List.mem_cons] at hx ⊢
        rcases hx with h1 | h1
        · exact Or.inl (Or.inl h1)
        · exact Or.inl (Or.inr h1)
      · have hbf : (ek == n.post.id) = false := Bool.eq_false_iff.mpr he
        have hinsert : insertNotification ((ek, ea) :: rest) n =
            (ek, ea) :: insertNotification rest n := by
          simp only [insertNotification, hbf, Bool.false_eq_true, if_false]
        rw [hinsert]
        intro x hx
        simp only [List.map_cons, List.mem_cons] at hx ⊢
        rcases hx with h1 | h1
        · exact Or.inl (Or.inl h1)
        · rcases ih x h1 with h2 | h2
          · exact Or.inl (Or.inr h2)
          · exact Or.inr h2

theorem keys_insert_nodup (acc : List (String × PostAgg)) (n : Notification)
    (h : (acc.map Prod.fst).Nodup) :
    ((insertNotification acc n).map Prod.fst).Nodup := by
  induction acc with
  | nil => simp [insertNotification]
  | cons e rest ih =>
      obtain ⟨ek, ea⟩ := e
      simp only [List.map_cons, List.nodup_cons] at h
      by_cases he : (ek == n.post.id) = true
      · have hinsert : insertNotification ((ek, ea) :: rest) n =
            (ek, applyNotification ea n) :: rest := by
          simp only [insertNotification, he, if_true]
        rw [hinsert]
        simp only [List.map_cons, List.nodup_cons]
        exact ⟨h.1, h.2⟩
      · have hbf : (ek == n.post.id) = false := Bool.eq_false_iff.mpr he
        have hinsert : insertNotification ((ek, ea) :: rest) n =
            (ek, ea) :: insertNotification rest n := by
          simp only [insertNotification, hbf, Bool.false_eq_true, if_false]
        rw [hinsert]
        simp only [List.map_cons, List.nodup_cons]
        refine ⟨?_, ih h.2⟩
        intro hmem
        rcases keys_insert_subset rest n ek hmem with h2 | h2
        · exact h.1 h2
        · exact he (by simp [h2])

theorem keys_foldl_nodup (ns : List Notification) (acc : List (String × PostAgg))
    (h : (acc.map Prod.fst).Nodup) :
    ((ns.foldl insertNotification acc).map Prod.fst).Nodup := by
  induction ns generalizing acc with
  | nil => exact h
  | cons n ns ih => exact ih _ (keys_insert_nodup acc n h)

theorem findAgg_of_mem (acc : List (String × PostAgg)) (k : String) (a : PostAgg)
    (hnd : (acc.map Prod.fst).Nodup) (hmem : (k, a) ∈ acc) :
    findAgg acc k = some a := by
  induction acc with
  | nil => simp at hmem
  | cons e rest ih =>
      obtain ⟨ek, ea⟩ := e
      simp only [List.map_cons, List.nodup_cons] at hnd
      rcases List.mem_cons.mp hmem with h1 | h1
      · rw [Prod.mk.injEq] at h1
        obtain ⟨hk, ha⟩ := h1
        subst hk
        subst ha
        simp [findAgg, List.find?]
      · have hkrest : k ∈ rest.map Prod.fst :=
          List.mem_map.mpr ⟨(k, a), h1, rfl⟩
        have hne : (ek == k) = false := by
          simp only [beq_eq_false_iff_ne, ne_eq]
          intro he
          exact hnd.1 (by rw [he]; exact hkrest)
        have hstep : findAgg ((ek, ea) :: rest) k = findAgg rest k := by
          simp [findAgg, List.find?, hne]
        rw [hstep]
        exact ih hnd.2 h1

theorem post_foldl (ms : List Notification) (a : PostAgg) :
    (ms.foldl applyNotification a).post = a.post := by
  induction ms generalizing a with
  | nil => rfl
  | cons m ms ih => rw [List.foldl_cons, ih]; rfl

theorem mem_aggregate_characterization (ns : List Notification) (a : PostAgg)
    (h : a ∈ _aggregateNotifications ns) :
    ∃ k m ms, ns.filter (fun x => x.post.id == k) = m :: ms ∧
      a = (m :: ms).foldl applyNotification (emptyAgg m.post) := by
  have h1 : a ∈ ((ns.foldl insertNotification []).map Prod.snd).insertionSort byTotalDesc :=
    (List.take_sublist 3 _).subset h
  have h2 : a ∈ (ns.foldl insertNotification []).map Prod.snd :=
    (List.mem_insertionSort byTotalDesc).mp h1
  obtain ⟨e, hmem, heq⟩ := List.mem_map.mp h2
  obtain ⟨k, b⟩ := e
  have hnd := keys_foldl_nodup ns [] (by simp)
  have hfind := findAgg_of_mem _ k b hnd hmem
  rw [findAgg_foldl] at hfind
  have hnil : findAgg ([] : List (String × PostAgg)) k = none := rfl
  rw [hnil] at hfind
  cases hfil : ns.filter (fun x => x.post.id == k) with
  | nil =>
      rw [hfil] at hfind
      simp [aggOf] at hfind
  | cons m ms =>
      rw [hfil] at hfind
      simp only [aggOf, Option.some.injEq] at hfind
      refine ⟨k, m, ms, hfil, ?_⟩
      rw [← heq]
      exact hfind.symm

theorem counts_total_foldl (ms : List Notification) (a : PostAgg)
    (h : a.counts.total = a.counts.comment + a.counts.like + a.counts.share) :
    (ms.foldl applyNotification a).counts.total =
      (ms.foldl applyNotification a).counts.comment +
        (ms.foldl applyNotification a).counts.like +
        (ms.foldl applyNotification a).counts.share := by
  induction ms generalizing a with
  | nil => exact h
  | cons m ms ih =>
      rw [List.foldl_cons]
      apply ih
      cases hm : m.action <;> simp [applyNotification, bumpCounts, hm] <;> omega

/-- The latest-comment specification of one post aggregate relative to the
list of notifications already folded into it. -/
def LatestP (a : PostAgg) (ms : List Notification) : Prop :=
  (a.latest = none → ∀ x ∈ ms, x.action ≠ NotificationAction.COMMENT) ∧
  ∀ m, a.latest = some m →
    m ∈ ms ∧ m.action = NotificationAction.COMMENT ∧
      ∀ x ∈ ms, x.action = NotificationAction.COMMENT → x.createdAt ≤ m.createdAt

theorem latestP_empty (p : Post) : LatestP (emptyAgg p) [] := by
  constructor
  · intro _ x hx
    simp at hx
  · intro m hm
    simp [emptyAgg] at hm

theorem latestP_apply (a : PostAgg) (ms : List Notification) (n : Notification)
    (h : LatestP a ms) : LatestP (applyNotification a n) (ms ++ [n]) := by
  obtain ⟨h1, h2⟩ := h
  have hlat : (applyNotification a n).latest = updateLatest a.latest n := rfl
  by_cases hc : n.action = NotificationAction.COMMENT
  · have hcc : ¬ n.action ≠ NotificationAction.COMMENT := by simp [hc]
    cases hcur : a.latest with
    | none =>
        have hres : (applyNotification a n).latest = some n := by
          simp [applyNotification, updateLatest, hc, hcur]
        constructor
        · intro h0
          rw [hres] at h0
          exact absurd h0 (by simp)
        · intro m hm
          rw [hres, Option.some.injEq] at hm
          subst hm
          refine ⟨List.mem_append_right _ (by simp), hc, ?_⟩
          intro x hx hxc
          rcases List.mem_append.mp hx with hxm | hxn
          · exact absurd hxc (h1 hcur x hxm)
          · simp at hxn
            rw [hxn]
    | some m0 =>
        obtain ⟨hm0mem, hm0act, hm0max⟩ := h2 m0 hcur
        by_cases hlt : m0.createdAt < n.createdAt
        · have hres : (applyNotification a n).latest = some n := by
            simp [applyNotification, updateLatest, hc, hcur, hlt]
          constructor
          · intro h0
            rw [hres] at h0
            exact absurd h0 (by simp)
          · intro m hm
            rw [hres, Option.some.injEq] at hm
            subst hm
            refine ⟨List.mem_append_right _ (by simp), hc, ?_⟩
            intro x hx hxc
            rcases List.mem_append.mp hx with hxm | hxn
            · exact le_trans (hm0max x hxm hxc) (le_of_lt hlt)
            · simp at hxn
              rw [hxn]
        · have hres : (applyNotification a n).latest = some m0 := by
            simp [applyNotification, updateLatest, hc, hcur, hlt]
          constructor
          · intro h0
            rw [hres] at h0
            exact absurd h0 (by simp)
          · intro m hm
            rw [hres, Option.some.injEq] at hm
            subst hm
            refine ⟨List.mem_append_left _ hm0mem, hm0act, ?_⟩
            intro x hx hxc
            rcases List.mem_append.mp hx with hxm | hxn
            · exact hm0max x hxm hxc
            · simp at hxn
              rw [hxn]
              exact le_of_not_lt hlt
  · have hres : (applyNotification a n).latest = a.latest := by
      simp [applyNotification, updateLatest, hc]
    constructor
    · intro h0 x hx
      rw [hres] at h0
      rcases List.mem_append.mp hx with hxm | hxn
      · exact h1 h0 x hxm
      · simp at hxn
        rw [hxn]
        exact hc
    · intro m hm
      rw [hres] at hm
      obtain ⟨hmmem, hmact, hmmax⟩ := h2 m hm
      refine ⟨List.mem_append_left _ hmmem, hmact, ?_⟩
      intro x hx hxc
      rcases List.mem_append.mp hx with hxm | hxn
      · exact hmmax x hxm hxc
      · simp at hxn
        rw [hxn] at hxc
        exact absurd hxc hc

theorem latestP_foldl (ms : List Notification) (a : PostAgg) (pre : List Notification)
    (h : LatestP a pre) : LatestP (ms.foldl applyNotification a) (pre ++ ms) := by
  induction ms generalizing a pre with
  | nil => simpa using h
  | cons m ms ih =>
      rw [List.foldl_cons]
      have h2 := ih (applyNotification a m) (pre ++ [m]) (latestP_apply a pre m h)
      simpa [List.append_assoc] using h2

/-! ## Claim theorems (first batch) -/

/-- Claim C3: for every input list of notifications, _aggregateNotifications
returns at most 3 post aggregates, and the returned list is sorted by
counts.total in descending order. -/
theorem aggregate_top3_sorted (ns : List Notification) :
    (_aggregateNotifications ns).length ≤ 3 ∧
      List.Sorted byTotalDesc (_aggregateNotifications ns) := by
  constructor
  · simp [_aggregateNotifications]
  · exact List.Pairwise.sublist (List.take_sublist _ _)
      (List.sorted_insertionSort byTotalDesc _)

/-- Claim C9: findUnreadDirectMessages performs no writes: the database
state after the call is the input state, for every invocation, including
those that throw.  The definition threads the state through every step and
never invokes setEmailSentAt. -/
theorem findUnreadDirectMessages_no_writes (db : DB) (lookback now : Int) :
    (findUnreadDirectMessages db lookback now).2 = db := rfl

/-- Claim C10: the URI is the concatenation of scheme, credentials segment,
host, port segment and query segment; the credentials segment is
username:password@ exactly when both username and password are truthy and
is silently empty otherwise; the :port segment appears exactly when port
is truthy; the retryWrites query suffix appears exactly when the flag is
set. -/
theorem buildUri_segments (c : Config) :
    _buildUri c =
      c.protocol ++ "://" ++ uriCredentials c ++ c.host ++ uriPort c ++ uriRetry c
    ∧ ((c.username.isEmpty || c.password.isEmpty) = false →
        uriCredentials c = c.username ++ ":" ++ c.password ++ "@")
    ∧ ((c.username.isEmpty || c.password.isEmpty) = true → uriCredentials c = "")
    ∧ (uriCredentials c ≠ "" ↔ (!c.username.isEmpty && !c.password.isEmpty) = true)
    ∧ (portTruthy c.port = false → uriPort c = "")
    ∧ (∀ p : Nat, c.port = some p → portTruthy c.port = true →
        uriPort c = ":" ++ toString p)
    ∧ (uriPort c ≠ "" ↔ portTruthy c.port = true)
    ∧ (c.retryWrites = true → uriRetry c = "?retryWrites=true&w=majority")
    ∧ (c.retryWrites = false → uriRetry c = "")
    ∧ (uriRetry c ≠ "" ↔ c.retryWrites = true) := by
  refine ⟨rfl, ?_, ?_, ?_, ?_, ?_, ?_, ?_, ?_, ?_⟩
  · intro h
    simp [Bool.or_eq_false_iff] at h
    simp [uriCredentials, h.1, h.2]
  · intro h
    rcases Bool.or_eq_true_iff.mp h with h1 | h1 <;> simp [uriCredentials, h1]
  · constructor
    · intro h
      by_contra hb
      simp [Bool.and_eq_true, Bool.not_eq_true] at hb
      cases hu : c.username.isEmpty with
      | true => exact h (by simp [uriCredentials, hu])
      | false =>
          have hp := hb hu
          exact h (by simp [uriCredentials, hp])
    · intro h
      simp [Bool.and_eq_true] at h
      simp only [uriCredentials, h.1, h.2]
      simpa using string_append_at_ne_empty c.username c.password
  · intro h
    cases hp : c.port with
    | none => simp [uriPort, hp]
    | some p =>
        rw [hp] at h
        simp [portTruthy] at h
        simp [uriPort, hp, h]
  · intro p hp ht
    rw [hp] at ht
    simp [portTruthy] at ht
    simp [uriPort, hp, ht]
  · constructor
    · intro h
      cases hp : c.port with
      | none => exact absurd (by simp [uriPort, hp]) h
      | some p =>
          rcases Nat.eq_zero_or_pos p with hz | hpos
          · subst hz
            exact absurd (by simp [uriPort, hp]) h
          · simp only [portTruthy, bne_iff_ne, ne_eq, decide_eq_true_eq]
            omega
    · intro h
      cases hp : c.port with
      | none => rw [hp] at h; simp [portTruthy] at h
      | some p =>
          rw [hp] at h
          simp [portTruthy] at h
          have hb : (p != 0) = true := by simpa using h
          simp only [uriPort, hp, hb, if_true]
          exact string_cons_colon_ne_empty (toString p)
  · intro h
    simp [uriRetry, h]
  · intro h
    simp [uriRetry, h]
  · constructor
    · intro h
      by_contra hb
      simp at hb
      exact h (by simp [uriRetry, hb])
    · intro h
      simp only [uriRetry, h, if_true]
      decide

/-- Claim C4: in every post aggregate produced by _aggregateNotifications,
the total count is the sum of the comment, like and share counts (every
action kind is one of comment, like or share, as the action enum has
exactly those three values). -/
theorem aggregate_counts_total (ns : List Notification) (a : PostAgg)
    (h : a ∈ _aggregateNotifications ns) :
    a.counts.total = a.counts.comment + a.counts.like + a.counts.share := by
  obtain ⟨k, m, ms, hfil, heq⟩ := mem_aggregate_characterization ns a h
  rw [heq]
  exact counts_total_foldl (m :: ms) (emptyAgg m.post) (by simp [emptyAgg])

/-- The example post of the concrete aggregation scenarios. -/
def pA : Post := { id := "a", title := "postA" }

/-- A comment notification on the example post. -/
def exComment (i : Nat) (t : Int) : Notification :=
  { id := i, receiver := 1, post := pA, action := NotificationAction.COMMENT,
    createdAt := t, readAt := none, emailSentAt := [] }

/-- The comment C1 at t = 1 of the latest-comment scenario. -/
def exC1 : Notification := exComment 1 1

/-- The comment C2 at t = 3 of the latest-comment scenario. -/
def exC2 : Notification := exComment 2 3

/-- The comment C3 at t = 2 of the latest-comment scenario. -/
def exC3 : Notification := exComment 3 2

/-- The latest-comment scenario input list. -/
def exCommentList : List Notification := [exC1, exC2, exC3]

/-- The aggregate the scenario produces: three comments, latest C2. -/
def exCommentAgg : PostAgg :=
  { latest := some exC2, post := pA,
    counts := { comment := 3, like := 0, share := 0, total := 3 } }

/-- Witness for claim C4 at the concrete three-comment scenario. -/
theorem aggregate_counts_total_witness :
    exCommentAgg ∈ _aggregateNotifications exCommentList ∧
      exCommentAgg.counts.total =
        exCommentAgg.counts.comment + exCommentAgg.counts.like +
          exCommentAgg.counts.share :=
  ⟨by decide, aggregate_counts_total exCommentList exCommentAgg (by decide)⟩

/-- Claim C5: in each post aggregate produced by _aggregateNotifications,
latest is null exactly as long as the group holds no comment-kind
notification, and otherwise holds a comment-kind notification of the group
whose creation timestamp is greatest (so in the C1 t=1, C2 t=3, C3 t=2
scenario it is C2, as the witness instantiates). -/
theorem aggregate_latest_spec (ns : List Notification) (a : PostAgg)
    (h : a ∈ _aggregateNotifications ns) :
    (a.latest = none → ∀ n ∈ ns, n.post.id = a.post.id →
        n.action ≠ NotificationAction.COMMENT) ∧
    ∀ m, a.latest = some m →
        m ∈ ns ∧ m.post.id = a.post.id ∧ m.action = NotificationAction.COMMENT ∧
          ∀ n ∈ ns, n.post.id = a.post.id → n.action = NotificationAction.COMMENT →
            n.createdAt ≤ m.createdAt := by
  obtain ⟨k, m0, ms, hfil, heq⟩ := mem_aggregate_characterization ns a h
  have hP : LatestP a (m0 :: ms) := by
    rw [heq]
    simpa using latestP_foldl (m0 :: ms) (emptyAgg m0.post) [] (latestP_empty m0.post)
  have hpost : a.post = m0.post := by
    rw [heq, post_foldl]
    simp [emptyAgg]
  have hm0fil : m0 ∈ ns.filter (fun x => x.post.id == k) := by
    rw [hfil]
    simp
  have hm0k : m0.post.id = k := by
    simpa using (List.mem_filter.mp hm0fil).2
  have hak : a.post.id = k := by
    rw [hpost]
    exact hm0k
  have hmemiff : ∀ x : Notification, x ∈ m0 :: ms ↔ x ∈ ns ∧ x.post.id = a.post.id := by
    intro x
    constructor
    · intro hx
      rw [← hfil] at hx
      have hx2 := List.mem_filter.mp hx
      refine ⟨hx2.1, ?_⟩
      rw [hak]
      simpa using hx2.2
    · intro hx
      rw [← hfil]
      refine List.mem_filter.mpr ⟨hx.1, ?_⟩
      have : x.post.id = k := by rw [← hak]; exact hx.2
      simp [this]
  constructor
  · intro h0 n hn hid
    exact hP.1 h0 n ((hmemiff n).mpr ⟨hn, hid⟩)
  · intro m hm
    obtain ⟨hmem, hact, hmax⟩ := hP.2 m hm
    have hmns := (hmemiff m).mp hmem
    exact ⟨hmns.1, hmns.2, hact,
      fun n hn hid hcact => hmax n ((hmemiff n).mpr ⟨hn, hid⟩) hcact⟩

/-- Witness for claim C5 at the three-comment scenario: the aggregate has
latest C2, the comment with the greatest creation timestamp. -/
theorem aggregate_latest_spec_witness :
    exC2 ∈ exCommentList ∧ exC2.post.id = exCommentAgg.post.id ∧
      exC2.action = NotificationAction.COMMENT ∧
      ∀ n ∈ exCommentList, n.post.id = exCommentAgg.post.id →
        n.action = NotificationAction.COMMENT → n.createdAt ≤ exC2.createdAt :=
  (aggregate_latest_spec exCommentList exCommentAgg (by decide)).2 exC2 (by decide)

/-- A notification with no sent stamps and no read stamp, for the window
boundary instances. -/
def unsentNotif (t : Int) : Notification :=
  { id := 0, receiver := 0, post := pA, action := NotificationAction.LIKE,
    createdAt := t, readAt := none, emailSentAt := [] }

/-- Claim C8: the digest match selects exactly the notifications with no
sent stamp for the requested tier that were created strictly after now
minus the tier window (daily = 1 day, weekly = 7 days, biweekly = 14
days); a notification created exactly at now minus 7 days is excluded from
a weekly query while one created at now minus 6 days is included. -/
theorem digest_window_selection (now : Int) (n : Notification) :
    (digestMatch EmailFrequency.DAILY now n = true ↔
       lookupSent n.emailSentAt EmailFrequency.DAILY = none ∧
         now - 1 * dayMs < n.createdAt)
    ∧ (digestMatch EmailFrequency.WEEKLY now n = true ↔
       lookupSent n.emailSentAt EmailFrequency.WEEKLY = none ∧
         now - 7 * dayMs < n.createdAt)
    ∧ (digestMatch EmailFrequency.BIWEEKLY now n = true ↔
       lookupSent n.emailSentAt EmailFrequency.BIWEEKLY = none ∧
         now - 14 * dayMs < n.createdAt)
    ∧ digestMatch EmailFrequency.WEEKLY now (unsentNotif (now - 7 * dayMs)) = false
    ∧ digestMatch EmailFrequency.WEEKLY now (unsentNotif (now - 6 * dayMs)) = true := by
  refine ⟨?_, ?_, ?_, ?_, ?_⟩
  · rw [digestMatch, intervalDaysFor_daily]
    simp [DateHelper.subtractDays, Bool.and_eq_true, Option.isNone_iff_eq_none]
  · rw [digestMatch, intervalDaysFor_weekly]
    simp [DateHelper.subtractDays, Bool.and_eq_true, Option.isNone_iff_eq_none]
  · rw [digestMatch, intervalDaysFor_biweekly]
    simp [DateHelper.subtractDays, Bool.and_eq_true, Option.isNone_iff_eq_none]
  · rw [digestMatch, intervalDaysFor_weekly]
    simp [DateHelper.subtractDays, unsentNotif, lookupSent]
  · rw [digestMatch, intervalDaysFor_weekly]
    simp [DateHelper.subtractDays, unsentNotif, lookupSent, dayMs]

/-- Witness for claim C8: a weekly digest match of a six-day-old unsent
notification at a concrete clock value. -/
theorem digest_window_selection_witness :
    digestMatch EmailFrequency.WEEKLY (7 * dayMs) (unsentNotif (1 * dayMs)) = true :=
  ((digest_window_selection (7 * dayMs) (unsentNotif (1 * dayMs))).2.1).mpr
    ⟨by decide, by decide⟩

theorem lookupSent_setSentField (e : List (String × Int)) (freq : String) (t : Int) :
    lookupSent (setSentField e freq t) freq = some t := by
  induction e with
  | nil => simp [setSentField, lookupSent, List.find?]
  | cons kv rest ih =>
      by_cases h : (kv.1 == freq) = true
      · simp [setSentField, h, lookupSent, List.find?]
      · have hb : (kv.1 == freq) = false := Bool.eq_false_iff.mpr h
        have hstep : setSentField (kv :: rest) freq t = kv :: setSentField rest freq t := by
          simp [setSentField, hb]
        rw [hstep]
        have hfind : lookupSent (kv :: setSentField rest freq t) freq =
            lookupSent (setSentField rest freq t) freq := by
          simp [lookupSent, List.find?, hb]
        rw [hfind]
        exact ih

/-- Claim C6: _findInstantNotifications stamps the instant sent timestamp
of every returned notification in the state it returns, and a second
invocation on that state (same clock, no external change) returns the
empty list. -/
theorem instant_stamp_idempotent (db : DB) (lookback now : Int) :
    (∀ r ∈ (_findInstantNotifications db lookback now).1,
      ∀ n2 ∈ (_findInstantNotifications db lookback now).2.notifications,
        n2.id = r.1.id →
          lookupSent n2.emailSentAt EmailFrequency.INSTANT = some now) ∧
    (_findInstantNotifications
        (_findInstantNotifications db lookback now).2 lookback now).1 = [] := by
  constructor
  · intro r hr n2 hn2 hid
    have hn2m : n2 ∈ db.notifications.map (fun n =>
        if ((instantResults db lookback now).map (fun r => r.1.id)).contains n.id then
          { n with emailSentAt := setSentField n.emailSentAt EmailFrequency.INSTANT now }
        else n) := hn2
    obtain ⟨n0, hn0, hfn⟩ := List.mem_map.mp hn2m
    by_cases hc :
        ((instantResults db lookback now).map (fun r => r.1.id)).contains n0.id = true
    · rw [if_pos hc] at hfn
      rw [← hfn]
      exact lookupSent_setSentField n0.emailSentAt EmailFrequency.INSTANT now
    · rw [if_neg hc] at hfn
      exfalso
      apply hc
      have h1 : n0.id = r.1.id := by rw [hfn]; exact hid
      have hr2 : r ∈ instantResults db lookback now := hr
      have hrid : r.1.id ∈ (instantResults db lookback now).map (fun x => x.1.id) :=
        List.mem_map.mpr ⟨r, hr2, rfl⟩
      rw [h1]
      simpa using hrid
  · rw [List.eq_nil_iff_forall_not_mem]
    intro x hx
    have hx1 : x ∈ instantResults (setEmailSentAt db
        ((instantResults db lookback now).map (fun r => r.1.id))
        EmailFrequency.INSTANT now) lookback now := hx
    obtain ⟨n2, hn2, hx2⟩ := List.mem_flatMap.mp hx1
    have hn2f := List.mem_filter.mp hn2
    have hn2map : n2 ∈ db.notifications.map (fun n =>
        if ((instantResults db lookback now).map (fun r => r.1.id)).contains n.id then
          { n with emailSentAt := setSentField n.emailSentAt EmailFrequency.INSTANT now }
        else n) := hn2f.1
    obtain ⟨n0, hn0, hfn⟩ := List.mem_map.mp hn2map
    by_cases hc :
        ((instantResults db lookback now).map (fun r => r.1.id)).contains n0.id = true
    · rw [if_pos hc] at hfn
      have hsent : lookupSent n2.emailSentAt EmailFrequency.INSTANT = some now := by
        rw [← hfn]
        exact lookupSent_setSentField n0.emailSentAt EmailFrequency.INSTANT now
      have hmatch := hn2f.2
      simp [instantMatch, hsent] at hmatch
    · rw [if_neg hc] at hfn
      apply hc
      obtain ⟨u, hu, hxu⟩ := List.mem_map.mp hx2
      have hmatch0 : instantMatch lookback now n0 = true := by
        rw [hfn]
        exact hn2f.2
      have hn0m : n0 ∈ instantMatched db lookback now :=
        List.mem_filter.mpr ⟨hn0, hmatch0⟩
      have hu0 : u ∈ db.users.filter (fun v => v.id == n0.receiver) := by
        rw [hfn]
        exact hu
      have hmem : (n0, u) ∈ instantResults db lookback now :=
        List.mem_flatMap.mpr ⟨n0, hn0m, List.mem_map.mpr ⟨u, hu0, rfl⟩⟩
      have hidmem : n0.id ∈ (instantResults db lookback now).map (fun r => r.1.id) :=
        List.mem_map.mpr ⟨(n0, u), hmem, rfl⟩
      simpa using hidmem

/-- The stale unread notification of the idempotency witness. -/
def exNotif5 : Notification :=
  { id := 5, receiver := 1, post := pA, action := NotificationAction.COMMENT,
    createdAt := 0, readAt := none, emailSentAt := [] }

/-- The receiver user of the idempotency witness. -/
def exUser1 : User := { id := 1, email := "u@x", notifyPrefs := none }

/-- The example database of the idempotency witness: one stale unread
notification for a user that exists. -/
def exInstantDb : DB :=
  { threads := [], messages := [], notifications := [exNotif5],
    users := [exUser1] }

/-- The notification of the idempotency witness after the instant stamp. -/
def exNotif5Stamped : Notification :=
  { exNotif5 with emailSentAt := [(EmailFrequency.INSTANT, 20 * minuteMs)] }

/-- Witness for claim C6: at the concrete database, the returned state
carries the instant timestamp on the returned notification. -/
theorem instant_stamp_idempotent_witness :
    lookupSent exNotif5Stamped.emailSentAt EmailFrequency.INSTANT =
      some (20 * minuteMs) :=
  (instant_stamp_idempotent exInstantDb 10 (20 * minuteMs)).1
    (exNotif5, exUser1) (by decide) exNotif5Stamped (by decide) (by decide)

/-- Claim C7: in a two-participant thread the loop resolves the
participant with zero unread count as sender and the one with positive
unread count as receiver; when both have zero or both have positive unread
counts the resolution fails and the loop body skips the thread, yielding
neither a pair nor an error. -/
theorem unread_pair_resolution (p1 p2 : Participant) (jt : JoinedThread)
    (msg : Message) (hps : jt.thread.participants = [p1, p2]) :
    (p1.newMessages = 0 → 0 < p2.newMessages →
      jt.thread.participants.find? senderPred = some p1 ∧
        jt.thread.participants.find? receiverPred = some p2) ∧
    (0 < p1.newMessages → p2.newMessages = 0 →
      jt.thread.participants.find? senderPred = some p2 ∧
        jt.thread.participants.find? receiverPred = some p1) ∧
    (p1.newMessages = 0 → p2.newMessages = 0 →
      jt.thread.participants.find? receiverPred = none ∧
        processThreadMessage jt msg = Except.ok none) ∧
    (0 < p1.newMessages → 0 < p2.newMessages →
      jt.thread.participants.find? senderPred = none ∧
        processThreadMessage jt msg = Except.ok none) := by
  refine ⟨?_, ?_, ?_, ?_⟩
  · intro h1 h2
    have hs1 : senderPred p1 = true := by simp [senderPred, h1]
    have hr1 : receiverPred p1 = false := by simp [receiverPred, h1]
    have hr2 : receiverPred p2 = true := by simpa [receiverPred] using h2
    rw [hps]
    constructor
    · simp [List.find?, hs1]
    · simp [List.find?, hr1, hr2]
  · intro h1 h2
    have hs1 : senderPred p1 = false := by
      simp only [senderPred, beq_eq_false_iff_ne, ne_eq]
      omega
    have hs2 : senderPred p2 = true := by simp [senderPred, h2]
    have hr1 : receiverPred p1 = true := by simpa [receiverPred] using h1
    rw [hps]
    constructor
    · simp [List.find?, hs1, hs2]
    · simp [List.find?, hr1]
  · intro h1 h2
    have hs1 : senderPred p1 = true := by simp [senderPred, h1]
    have hr1 : receiverPred p1 = false := by simp [receiverPred, h1]
    have hr2 : receiverPred p2 = false := by simp [receiverPred, h2]
    have hr : jt.thread.participants.find? receiverPred = none := by
      rw [hps]
      simp [List.find?, hr1, hr2]
    have hs : jt.thread.participants.find? senderPred = some p1 := by
      rw [hps]
      simp [List.find?, hs1]
    refine ⟨hr, ?_⟩
    simp [processThreadMessage, hs, hr]
  · intro h1 h2
    have hs1 : senderPred p1 = false := by
      simp only [senderPred, beq_eq_false_iff_ne, ne_eq]
      omega
    have hs2 : senderPred p2 = false := by
      simp only [senderPred, beq_eq_false_iff_ne, ne_eq]
      omega
    have hr1 : receiverPred p1 = true := by simpa [receiverPred] using h1
    have hs : jt.thread.participants.find? senderPred = none := by
      rw [hps]
      simp [List.find?, hs1, hs2]
    have hr : jt.thread.participants.find? receiverPred = some p1 := by
      rw [hps]
      simp [List.find?, hr1]
    refine ⟨hs, ?_⟩
    simp [processThreadMessage, hs, hr]

/-- The zero-unread participant of the resolution witness. -/
def exSenderP : Participant :=
  { id := 10, newMessages := 0, lastAccess := 0,
    status := MessageThreadStatus.ACCEPTED }

/-- The positive-unread participant of the resolution witness. -/
def exReceiverP : Participant :=
  { id := 11, newMessages := 3, lastAccess := 0,
    status := MessageThreadStatus.ACCEPTED }

/-- The joined thread of the resolution witness. -/
def exJT : JoinedThread :=
  { thread := { id := 1, participants := [exSenderP, exReceiverP] },
    users := [{ id := 11, email := "r@x", notifyPrefs := none }] }

/-- The latest message of the resolution witness. -/
def exMsg : Message := { id := 1, threadId := 1, createdAt := 5, content := "hi" }

/-- Witness for claim C7: P1 with unread 0 resolves as sender and P2 with
unread 3 as receiver. -/
theorem unread_pair_resolution_witness :
    exJT.thread.participants.find? senderPred = some exSenderP ∧
      exJT.thread.participants.find? receiverPred = some exReceiverP :=
  (unread_pair_resolution exSenderP exReceiverP exJT exMsg rfl).1 rfl (by decide)

/-- The full configuration of the URI witness. -/
def exConfigFull : Config :=
  { protocol := "mongodb", host := "db.example.com", username := "alice",
    password := "secret", port := some 27017, retryWrites := true,
    database := "fp" }

/-- Witness for claim C10: with both credentials truthy, the credentials
segment is username colon password at-sign. -/
theorem buildUri_segments_witness :
    uriCredentials exConfigFull =
      exConfigFull.username ++ ":" ++ exConfigFull.password ++ "@" :=
  (buildUri_segments exConfigFull).2.1 (by decide)

/-- The unrecognized frequency value of the misconfiguration scenario. -/
def freqMonthly : String := "monthly"

/-- A 100-day-old unsent notification: outside every defined digest
window. -/
def exOldNotif : Notification :=
  { id := 7, receiver := 1, post := pA, action := NotificationAction.LIKE,
    createdAt := 100 * dayMs, readAt := none, emailSentAt := [] }

/-- The notification of the misconfiguration scenario after the run, with
a sent stamp written under the unrecognized tier key. -/
def exOldNotifStamped : Notification :=
  { exOldNotif with emailSentAt := [(freqMonthly, 200 * dayMs)] }

/-- The database of the misconfiguration scenario. -/
def exDigestDb : DB :=
  { threads := [], messages := [], notifications := [exOldNotif],
    users := [exUser1] }

/-- The aggregate the scenario computes for the stale post. -/
def exOldAgg : PostAgg :=
  { latest := none, post := pA,
    counts := { comment := 0, like := 1, share := 0, total := 1 } }

/-- The digest the scenario returns. -/
def exMonthlyDigest : Digest := { posts := [exOldAgg], receiver := exUser1 }

/-- Claim C1, behaviour of the code at the failing input: for the
unrecognized frequency monthly, findNotifications does not reject the
request with a configuration error; intervalDaysFor is undefined, the
digest query runs with the resulting unbounded window (the invalid date is
serialized as the epoch), the call returns a digest computed from that
window, containing a notification 100 days old that no defined window
admits, and it even stamps emailSentAt.monthly in the database. -/
theorem findNotifications_unrecognized_frequency_proceeds :
    intervalDaysFor freqMonthly = none ∧
      findNotifications exDigestDb 10 (200 * dayMs) freqMonthly =
        (FindResult.digestList [exMonthlyDigest],
          { exDigestDb with notifications := [exOldNotifStamped] }) := by
  constructor
  · decide
  · decide

/-- The zero-unread participant of the aborting thread. -/
def exP10 : Participant :=
  { id := 10, newMessages := 0, lastAccess := 0,
    status := MessageThreadStatus.ACCEPTED }

/-- The unread-count participant of the aborting thread; its user record
is missing from the users collection. -/
def exP11 : Participant :=
  { id := 11, newMessages := 2, lastAccess := 0,
    status := MessageThreadStatus.ACCEPTED }

/-- The zero-unread participant of the healthy thread. -/
def exP20 : Participant :=
  { id := 20, newMessages := 0, lastAccess := 0,
    status := MessageThreadStatus.ACCEPTED }

/-- The unread-count participant of the healthy thread. -/
def exP21 : Participant :=
  { id := 21, newMessages := 1, lastAccess := 0,
    status := MessageThreadStatus.ACCEPTED }

/-- The user record of the healthy receiver, the only user on file. -/
def exU21 : User := { id := 21, email := "b@x", notifyPrefs := none }

/-- The thread whose receiver user record is missing. -/
def exT1 : Thread := { id := 1, participants := [exP10, exP11] }

/-- The healthy thread. -/
def exT2 : Thread := { id := 2, participants := [exP20, exP21] }

/-- The latest message of the aborting thread. -/
def exM1 : Message := { id := 1, threadId := 1, createdAt := 5, content := "m1" }

/-- The latest message of the healthy thread. -/
def exM2 : Message := { id := 2, threadId := 2, createdAt := 6, content := "m2" }

/-- The database of the missing-receiver-user scenario: the aborting
thread comes first, the healthy thread second. -/
def exDmDb : DB :=
  { threads := [exT1, exT2], messages := [exM1, exM2], notifications := [],
    users := [exU21] }

/-- The item the healthy thread would produce. -/
def exItem2 : DirectMessageItem :=
  { sender := exP20, receiver := exP21, receiverEmail := exU21.email,
    message := exM2 }

/-- Counterexample to claim C2: at the concrete database in which the
first qualifying thread lacks its receiver user record and the second is
healthy, findUnreadDirectMessages does not skip the first thread and
continue — the claimed output, the singleton list of the healthy item, is
not returned. -/
theorem unreadDM_missing_user_not_skipped :
    (findUnreadDirectMessages exDmDb 10 (20 * minuteMs)).1 ≠
      Except.ok [exItem2] := by
  intro h
  have h0 : (findUnreadDirectMessages exDmDb 10 (20 * minuteMs)).1 =
      Except.error typeErrorMsg := rfl
  rw [h0] at h
  exact Except.noConfusion h

/-- Claim C2 amended: when the receiver user record of a processed thread
is not found among the joined users, findUnreadDirectMessages throws the
TypeError raised by destructuring undefined, aborting the whole call, so
the remaining threads are not processed (only threads failing
sender/receiver resolution are skipped with processing continuing). -/
theorem unreadDM_missing_user_aborts :
    (findUnreadDirectMessages exDmDb 10 (20 * minuteMs)).1 =
      Except.error typeErrorMsg := rfl

end FightPandemics
